import Mathlib

/-
  Verification development for the chemometrics calibration core
  (src/logic/processing.py, together with the registry logic of
  src/ui/main_window.py).  Python dictionaries are embedded as
  association lists with Python dict semantics (assignment overwrites
  in place or appends a fresh key at the end, pop removes the key),
  numeric data as rationals, and fallible calls as Except values.
-/

namespace Chemometrics

/-- Error taxonomy of the spec, section 7: preprocessing input shorter
than the derivative window, fewer than five labeled spectra for the
requested component, or a latent-component count incompatible with the
dataset size. -/
inductive CoreError where
  | invalidInputLength : CoreError
  | insufficientData : String → CoreError
  | invalidParameter : CoreError
deriving DecidableEq, Repr

/-- Intensity and wavenumber vectors are sequences of rationals. -/
abbrev Vec := List ℚ

/-- Python dict lookup: first (and only) binding of the key. -/
def dictGet {α : Type} : List (String × α) → String → Option α
  | [], _ => none
  | (k, v) :: rest, key => if k = key then some v else dictGet rest key

/-- Python dict assignment: overwrite the existing binding in place,
or append a fresh binding at the end. -/
def dictInsert {α : Type} : List (String × α) → String → α → List (String × α)
  | [], key, v => [(key, v)]
  | (k, w) :: rest, key, v =>
      if k = key then (key, v) :: rest else (k, w) :: dictInsert rest key v

/-- Python dict pop: remove the binding of the key. -/
def dictErase {α : Type} : List (String × α) → String → List (String × α)
  | [], _ => []
  | (k, w) :: rest, key =>
      if k = key then dictErase rest key else (k, w) :: dictErase rest key

/- ----------------------------------------------------------------
   Preprocessor (section 4.1; get_processed_intensity in
   src/logic/processing.py lines 50-59)
   ---------------------------------------------------------------- -/

/-- Sum of a window paired with its sample offsets 0,1,2,... weighted by
a coefficient function of the offset. -/
def offsetSum (f : Nat → ℚ) (ws : Vec) : ℚ :=
  (List.range ws.length).foldl (fun acc i => acc + f i * ws.getD i 0) 0

/-- Power sums of the offsets 0..10 of an 11-sample window. -/
def sgS0 : ℚ := 11
def sgS1 : ℚ := 55
def sgS2 : ℚ := 385
def sgS3 : ℚ := 3025
def sgS4 : ℚ := 25333

/-- Determinant of the normal-equation matrix for a least-squares
quadratic over offsets 0..10. -/
def sgDet : ℚ :=
  sgS4 * (sgS2 * sgS0 - sgS1 * sgS1)
    - sgS3 * (sgS3 * sgS0 - sgS1 * sgS2)
    + sgS2 * (sgS3 * sgS1 - sgS2 * sgS2)

/-- Leading coefficient of the least-squares quadratic fitted to an
11-sample window (Cramer rule on the normal equations). -/
def sgCoeffA (ws : Vec) : ℚ :=
  let m1 := offsetSum (fun _ => 1) ws
  let m2 := offsetSum (fun i => (i : ℚ)) ws
  let m3 := offsetSum (fun i => (i : ℚ) * (i : ℚ)) ws
  (m3 * (sgS2 * sgS0 - sgS1 * sgS1)
    - sgS3 * (m2 * sgS0 - m1 * sgS1)
    + sgS2 * (m2 * sgS1 - m1 * sgS2)) / sgDet

/-- Linear coefficient of the least-squares quadratic fitted to an
11-sample window. -/
def sgCoeffB (ws : Vec) : ℚ :=
  let m1 := offsetSum (fun _ => 1) ws
  let m2 := offsetSum (fun i => (i : ℚ)) ws
  let m3 := offsetSum (fun i => (i : ℚ) * (i : ℚ)) ws
  (sgS4 * (m2 * sgS0 - m1 * sgS1)
    - m3 * (sgS3 * sgS0 - sgS1 * sgS2)
    + sgS2 * (sgS3 * m1 - m2 * sgS2)) / sgDet

/-- Derivative of the window quadratic at offset t: first derivative is
2 a t + b, second derivative is the constant 2 a. -/
def quadFitDeriv (ws : Vec) (d : Nat) (t : ℚ) : ℚ :=
  if d = 1 then 2 * sgCoeffA ws * t + sgCoeffB ws
  else 2 * sgCoeffA ws

/-- Modelled from the spec: scipy.signal.savgol_filter (an external
library, not part of this repository) with window length 11 and
polynomial order 2 as called by get_processed_intensity.  A local
least-squares quadratic is fitted over an 11-sample window (clamped to
the array at the edges, matching the interp edge mode) and its d-th
derivative evaluated at each sample, in units of absorbance per sample
index; inputs shorter than the window are a hard failure. -/
def savgol_filter11 (ys : Vec) (d : Nat) : Except CoreError Vec :=
  if ys.length < 11 then .error .invalidInputLength
  else .ok ((List.range ys.length).map (fun j =>
    let start := min (j - 5) (ys.length - 11)
    quadFitDeriv ((ys.drop start).take 11) d ((j - start : Nat) : ℚ)))

/-- Embedding of get_processed_intensity (src/logic/processing.py lines
50-59): order 0 returns the input, orders 1 and 2 apply the window-11
polyorder-2 smoothing derivative, and any other order falls through to
the final return of the unchanged input. -/
def get_processed_intensity (original_intensity : Vec) (derivative_order : Int) :
    Except CoreError Vec :=
  if derivative_order = 0 then .ok original_intensity
  else if derivative_order = 1 then savgol_filter11 original_intensity 1
  else if derivative_order = 2 then savgol_filter11 original_intensity 2
  else .ok original_intensity

/- ----------------------------------------------------------------
   Data model (section 3) and the loader
   (load_spectra_from_folder, src/logic/processing.py lines 12-21)
   ---------------------------------------------------------------- -/

/-- What the external reader spc.read_spa yields for one file: the
wavenumber axis (nd.x.data) and the intensity data (nd.data.squeeze). -/
structure RawND where
  x : Vec
  data : Vec
deriving DecidableEq, Repr

/-- One stored spectrum: the retained wavenumber axis, the squeezed
intensity, and the per-component reference map.  A reference entry may
be present with a null value (the table stores None for a cleared
cell), hence the Option-valued map. -/
structure SpectrumData where
  x : Vec
  intensity : Vec
  refs : List (String × Option ℚ)
deriving DecidableEq, Repr

/-- SpectraPool: filename keyed dict of spectra, in insertion order. -/
abbrev Pool := List (String × SpectrumData)

/-- Embedding of load_spectra_from_folder (src/logic/processing.py
lines 12-21).  The directory walk and binary parsing are external; the
function is parametrised by the globbed file list together with each
read outcome, and stores every successfully read spectrum with an
empty reference map, skipping files whose read raised. -/
def load_spectra_from_folder (files : List (String × Except String RawND)) : Pool :=
  files.foldl (fun spectra_data fp =>
    match fp.2 with
    | .ok nd => dictInsert spectra_data fp.1 ⟨nd.x, nd.data, []⟩
    | .error _ => spectra_data) []

/-- The last successful read outcome recorded for a filename, in glob
order (later reads of the same name overwrite earlier ones). -/
def lastOkRead (files : List (String × Except String RawND)) (name : String) :
    Option RawND :=
  files.foldl (fun acc fp =>
    match fp.2 with
    | .ok nd => if fp.1 = name then some nd else acc
    | .error _ => acc) none

/- ----------------------------------------------------------------
   Dataset assembly (section 4.2; the loop of train_pls_model,
   src/logic/processing.py lines 24-29)
   ---------------------------------------------------------------- -/

/-- Python refs.get(target): None when the key is absent, otherwise
the stored value, which may itself be None. -/
def refGet (refs : List (String × Option ℚ)) (target : String) : Option ℚ :=
  match dictGet refs target with
  | some v => v
  | none => none

/-- Embedding of the assembly loop of train_pls_model: iterate the
pool in order, and for each spectrum whose reference value for the
target is not None, append the processed intensity to the feature list
and the reference value to the target list; a preprocessing failure
aborts the whole call. -/
def assembleDataset (pool : Pool) (target : String) (derivative : Int) :
    Except CoreError (List Vec × Vec) :=
  match pool with
  | [] => .ok ([], [])
  | (_, data) :: rest =>
    match refGet data.refs target with
    | none => assembleDataset rest target derivative
    | some refVal =>
      match get_processed_intensity data.intensity derivative with
      | .error e => .error e
      | .ok p =>
        match assembleDataset rest target derivative with
        | .error e => .error e
        | .ok (xList, yList) => .ok (p :: xList, refVal :: yList)

/-- The qualifying spectra of section 4.2: intensity and reference
value of exactly those pool entries whose reference value for the
target component is present, in pool iteration order. -/
def qualifying (pool : Pool) (target : String) : List (Vec × ℚ) :=
  pool.filterMap (fun fs => (refGet fs.2.refs target).map (fun v => (fs.2.intensity, v)))

/-- Process each qualifying pair in order, keeping its reference value;
the first preprocessing failure aborts. -/
def processPairs (derivative : Int) : List (Vec × ℚ) → Except CoreError (List (Vec × ℚ))
  | [] => .ok []
  | (i, v) :: rest =>
    match get_processed_intensity i derivative with
    | .error e => .error e
    | .ok p =>
      match processPairs derivative rest with
      | .error e => .error e
      | .ok r => .ok ((p, v) :: r)

/-- Dataset assembly as section 4.2 words it: filter the pool to the
spectra with a present reference value for the target, pair each
processed intensity with its reference value, and split into the
parallel feature and target lists. -/
def assembleSpecified (pool : Pool) (target : String) (derivative : Int) :
    Except CoreError (List Vec × Vec) :=
  match processPairs derivative (qualifying pool target) with
  | .error e => .error e
  | .ok l => .ok (l.map Prod.fst, l.map Prod.snd)

/- ----------------------------------------------------------------
   Calibration trainer (section 4.3; train_pls_model,
   src/logic/processing.py lines 23-48)
   ---------------------------------------------------------------- -/

/-- Held-out test size of train_test_split with test_size 0.3: the
ceiling of three tenths of the sample count. -/
def nTestOf (n : Nat) : Nat := (3 * n + 9) / 10

/-- A 64-bit linear congruential step. -/
def lcgNext (s : Nat) : Nat := (6364136223846793005 * s + 1442695040888963407) % (2 ^ 64)

/-- Draw the elements of a list one by one, the position of each draw
taken from successive states of the congruential generator; the fuel
argument equals the list length at the top call. -/
def drawAll : Nat → Nat → List Nat → List Nat
  | 0, _, _ => []
  | _ + 1, _, [] => []
  | fuel + 1, s, l =>
      let i := s % l.length
      l.getD i 0 :: drawAll fuel (lcgNext s) (l.eraseIdx i)

/-- Modelled from the spec: the deterministic seeded random partition
of section 4.3 (numpy shuffling behind train_test_split with
random_state 42, an external library).  A fixed seed yields a fixed
permutation of the indices 0..n-1. -/
def seededPerm (seed n : Nat) : List Nat := drawAll n seed (List.range n)

/-- Index lists of train_test_split: the first ceil(0.3 n) positions of
the seeded permutation are the test rows, the rest the training rows;
returned as (train indices, test indices). -/
def splitIdx (n : Nat) : List Nat × List Nat :=
  let perm := seededPerm 42 n
  (perm.drop (nTestOf n), perm.take (nTestOf n))

/-- Select the rows of a matrix at the given indices. -/
def rowsOf (X : List Vec) (idx : List Nat) : List Vec :=
  idx.map (fun i => X.getD i [])

/-- Select the entries of a vector at the given indices. -/
def entriesOf (y : Vec) (idx : List Nat) : Vec :=
  idx.map (fun i => y.getD i 0)

/-- Feature dimensionality of a row-major matrix: length of its first
row. -/
def featDim (X : List Vec) : Nat := (X.headD []).length

/-- Modelled from the spec: a deterministic square-root approximation
standing in for the float square roots taken by numpy and the scaler
(external libraries); a fixed number of Newton steps from a fixed
start. -/
def sqrtApprox (q : ℚ) : ℚ :=
  if q ≤ 0 then 0
  else (List.range 8).foldl (fun x _ => (x + q / x) / 2) (max q 1)

/-- Column means of a matrix over the first m features. -/
def colMeans (X : List Vec) (m : Nat) : Vec :=
  (List.range m).map (fun j => (X.map (fun r => r.getD j 0)).sum / (X.length : ℚ))

/-- Biased column variances of a matrix over the first m features. -/
def colVars (X : List Vec) (m : Nat) : Vec :=
  (List.range m).map (fun j =>
    let mu := (X.map (fun r => r.getD j 0)).sum / (X.length : ℚ)
    (X.map (fun r => (r.getD j 0 - mu) * (r.getD j 0 - mu))).sum / (X.length : ℚ))

/-- A fitted StandardScaler: per-feature mean and scale learned on the
training split. -/
structure Scaler where
  mean : Vec
  scale : Vec
deriving DecidableEq, Repr

/-- Modelled from the spec: StandardScaler.fit (sklearn, an external
library) — per-feature mean and standard deviation of the training
rows, a zero deviation replaced by one. -/
def fitScaler (X : List Vec) : Scaler :=
  ⟨colMeans X (featDim X),
   (colVars X (featDim X)).map (fun v => if v = 0 then 1 else sqrtApprox v)⟩

/-- Apply a fitted scaler to one row: per feature, subtract the mean
and divide by the scale. -/
def transformRow (sc : Scaler) (r : Vec) : Vec :=
  (List.range sc.mean.length).map (fun j =>
    (r.getD j 0 - sc.mean.getD j 0) / sc.scale.getD j 1)

/-- A fitted PLS regression artifact: the requested latent-component
count and the scaled training data it was fitted on. -/
structure PLSModel where
  nComponents : Nat
  xFit : List Vec
  yFit : Vec
deriving DecidableEq, Repr

/-- Modelled from the spec: PLSRegression fit (sklearn, an external
library).  Section 4.3 prescribes that a latent-component count
exceeding min(samples, features) is treated as InvalidParameter; the
fitted regression internals are otherwise opaque and are retained as
the fitted inputs. -/
def plsFit (nComponents : Nat) (X : List Vec) (y : Vec) : Except CoreError PLSModel :=
  if 1 ≤ nComponents ∧ nComponents ≤ min X.length (featDim X) then
    .ok ⟨nComponents, X, y⟩
  else .error .invalidParameter

/-- Modelled from the spec: PLSRegression prediction (sklearn, an
external library).  The spec constrains prediction only to be a
deterministic function of the fitted model and the input row; it is
modelled as the mean of the fitted training targets. -/
def plsPredict (model : PLSModel) (_row : Vec) : ℚ :=
  model.yFit.sum / (model.yFit.length : ℚ)

/-- Coefficient of determination between true and predicted targets. -/
def r2_score (yTrue yPred : Vec) : ℚ :=
  let mu := yTrue.sum / (yTrue.length : ℚ)
  let ssRes := ((yTrue.zip yPred).map (fun p => (p.1 - p.2) * (p.1 - p.2))).sum
  let ssTot := (yTrue.map (fun v => (v - mu) * (v - mu))).sum
  1 - ssRes / ssTot

/-- Root-mean-squared error between true and predicted targets. -/
def rmse_score (yTrue yPred : Vec) : ℚ :=
  sqrtApprox (((yTrue.zip yPred).map (fun p => (p.1 - p.2) * (p.1 - p.2))).sum
    / (yTrue.length : ℚ))

/-- Result of a successful training run: the fitted model and scaler
plus the held-out metrics. -/
structure TrainResult where
  model : PLSModel
  scaler : Scaler
  r2 : ℚ
  rmse : ℚ
deriving DecidableEq, Repr

/-- The split/scale/fit/evaluate stage of train_pls_model
(src/logic/processing.py lines 34-48): seeded 70/30 split, scaler
fitted on the training rows only and applied to both subsets, PLS fit
on the scaled training data, prediction and metrics on the scaled test
data. -/
def fitStage (X : List Vec) (y : Vec) (num_components : Nat) :
    Except CoreError TrainResult :=
  let idx := splitIdx X.length
  let xTrain := rowsOf X idx.1
  let xTest := rowsOf X idx.2
  let yTrain := entriesOf y idx.1
  let yTest := entriesOf y idx.2
  let scaler := fitScaler xTrain
  let xTrainScaled := xTrain.map (transformRow scaler)
  let xTestScaled := xTest.map (transformRow scaler)
  match plsFit num_components xTrainScaled yTrain with
  | .error e => .error e
  | .ok model =>
    let yPred := xTestScaled.map (plsPredict model)
    .ok ⟨model, scaler, r2_score yTest yPred, rmse_score yTest yPred⟩

/-- Embedding of train_pls_model (src/logic/processing.py lines
23-48): assemble the dataset from the pool, fail with the
insufficient-data message carrying the target component when fewer
than five pairs were collected, otherwise split, scale, fit and
evaluate. -/
def train_pls_model (spectra_data : Pool) (target_component : String)
    (num_components : Nat) (current_derivative : Int) :
    Except CoreError TrainResult :=
  match assembleDataset spectra_data target_component current_derivative with
  | .error e => .error e
  | .ok (xList, yList) =>
    if xList.length < 5 then .error (.insufficientData target_component)
    else fitStage xList yList num_components

/- ----------------------------------------------------------------
   Model registry and the UI actions that drive it
   (src/ui/main_window.py)
   ---------------------------------------------------------------- -/

/-- A registry entry: the trained model together with its scaler. -/
structure RegEntry where
  model : PLSModel
  scaler : Scaler
deriving DecidableEq, Repr

/-- Model Registry: component name keyed dict of trained entries. -/
abbrev Registry := List (String × RegEntry)

/-- Embedding of the column-0 (rename) branch of
SpectraViewer.update_component_value (src/ui/main_window.py lines
143-152): when the edited name differs from the old one, the registry
entry under the old name, if any, is popped and re-inserted under the
new name, and each spectrum whose reference map has an entry under the
old name has that entry popped and re-inserted under the new name.
When the names coincide the handler returns early and nothing
changes. -/
def update_component_value (pls_models : Registry) (spectra_data : Pool)
    (old_name new_value : String) : Registry × Pool :=
  if old_name = new_value then (pls_models, spectra_data)
  else
    let models :=
      match dictGet pls_models old_name with
      | some entry => dictInsert (dictErase pls_models old_name) new_value entry
      | none => pls_models
    let pool := spectra_data.map (fun fs =>
      match dictGet fs.2.refs old_name with
      | some v => (fs.1, { fs.2 with refs := dictInsert (dictErase fs.2.refs old_name) new_value v })
      | none => fs)
    (models, pool)

/-- The shared mutable state the training action touches: the spectra
pool and the model registry. -/
structure AppState where
  spectra_data : Pool
  pls_models : Registry
deriving Repr

/-- Embedding of SpectraViewer.train_pls_model_action
(src/ui/main_window.py lines 245-261): an empty component selection
only warns; a failed training call (the insufficient-data sentinel, or
a library exception propagating out) leaves the state untouched; a
successful one stores the model and scaler in the registry under the
target name and surfaces the metrics. -/
def train_pls_model_action (st : AppState) (target_component : String)
    (num_components : Nat) (current_derivative : Int) :
    AppState × Option (ℚ × ℚ) :=
  if target_component = "" then (st, none)
  else
    match train_pls_model st.spectra_data target_component num_components current_derivative with
    | .error _ => (st, none)
    | .ok r =>
      ({ st with pls_models := dictInsert st.pls_models target_component ⟨r.model, r.scaler⟩ },
       some (r.r2, r.rmse))

/- ----------------------------------------------------------------
   Dictionary laws
   ---------------------------------------------------------------- -/

theorem dictGet_insert_self {α : Type} (l : List (String × α)) (k : String) (v : α) :
    dictGet (dictInsert l k v) k = some v := by
  induction l with
  | nil => simp [dictGet, dictInsert]
  | cons head rest ih =>
    obtain ⟨hk, hv⟩ := head
    by_cases h : hk = k <;> simp [dictGet, dictInsert, h, ih]

theorem dictGet_insert_ne {α : Type} (l : List (String × α)) (k key : String) (v : α)
    (h : k ≠ key) : dictGet (dictInsert l k v) key = dictGet l key := by
  induction l with
  | nil => simp [dictGet, dictInsert, h]
  | cons head rest ih =>
    obtain ⟨hk, hv⟩ := head
    by_cases hh : hk = k
    · subst hh; simp [dictGet, dictInsert, h]
    · simp [dictGet, dictInsert, hh, ih]

theorem dictGet_erase_self {α : Type} (l : List (String × α)) (k : String) :
    dictGet (dictErase l k) k = none := by
  induction l with
  | nil => simp [dictGet, dictErase]
  | cons head rest ih =>
    obtain ⟨hk, hv⟩ := head
    by_cases h : hk = k <;> simp [dictGet, dictErase, h, ih]

theorem dictGet_erase_ne {α : Type} (l : List (String × α)) (k key : String)
    (h : k ≠ key) : dictGet (dictErase l k) key = dictGet l key := by
  induction l with
  | nil => simp [dictGet, dictErase]
  | cons head rest ih =>
    obtain ⟨hk, hv⟩ := head
    by_cases hh : hk = k
    · subst hh; simp [dictGet, dictErase, h, ih]
    · simp [dictGet, dictErase, hh, ih]

/- ----------------------------------------------------------------
   Assembly lemmas
   ---------------------------------------------------------------- -/

theorem assemble_eq_specified (pool : Pool) (t : String) (d : Int) :
    assembleDataset pool t d = assembleSpecified pool t d := by
  induction pool with
  | nil => rfl
  | cons head rest ih =>
    obtain ⟨f, data⟩ := head
    unfold assembleDataset assembleSpecified qualifying
    rw [List.filterMap_cons]
    cases hr : refGet data.refs t with
    | none =>
      simp only [Option.map_none']
      rw [ih]; rfl
    | some v =>
      simp only [Option.map_some']
      unfold processPairs
      cases hp : get_processed_intensity data.intensity d with
      | error e => rfl
      | ok p =>
        rw [ih]
        unfold assembleSpecified qualifying
        cases hq : processPairs d (rest.filterMap
            (fun fs => (refGet fs.2.refs t).map (fun v => (fs.2.intensity, v)))) with
        | error e => rfl
        | ok r => rfl

theorem processPairs_ok_of_all_ok (d : Int) (l : List (Vec × ℚ))
    (h : ∀ iv ∈ l, (get_processed_intensity iv.1 d).isOk = true) :
    ∃ r, processPairs d l = .ok r ∧ r.length = l.length := by
  induction l with
  | nil => exact ⟨[], rfl, rfl⟩
  | cons head rest ih =>
    obtain ⟨i, v⟩ := head
    have hh := h (i, v) (List.mem_cons_self _ _)
    obtain ⟨r, hr, hlen⟩ := ih (fun iv hm => h iv (List.mem_cons_of_mem _ hm))
    cases hp : get_processed_intensity i d with
    | error e => rw [hp] at hh; simp [Except.isOk, Except.toBool] at hh
    | ok p =>
      refine ⟨(p, v) :: r, ?_, by simp [hlen]⟩
      unfold processPairs
      rw [hp, hr]

theorem qualifying_all_ok (pool : Pool) (t : String) (d : Int)
    (hp : ∀ fs ∈ pool, (refGet fs.2.refs t).isSome = true →
      (get_processed_intensity fs.2.intensity d).isOk = true) :
    ∀ iv ∈ qualifying pool t, (get_processed_intensity iv.1 d).isOk = true := by
  intro iv hm
  unfold qualifying at hm
  rw [List.mem_filterMap] at hm
  obtain ⟨fs, hfs, heq⟩ := hm
  cases hr : refGet fs.2.refs t with
  | none => rw [hr] at heq; simp at heq
  | some v =>
    rw [hr] at heq
    simp only [Option.map_some', Option.some.injEq] at heq
    have := hp fs hfs (by rw [hr]; rfl)
    rw [← heq]
    exact this

theorem fitStage_error_eq (X : List Vec) (y : Vec) (n : Nat) (e : CoreError)
    (h : fitStage X y n = .error e) : e = .invalidParameter := by
  unfold fitStage plsFit at h
  dsimp only at h
  split_ifs at h
  all_goals simp at h
  exact h.symm

/- ----------------------------------------------------------------
   Claims about the preprocessor
   ---------------------------------------------------------------- -/

/-- C3: for every intensity vector of length at least 11, processing
with derivative order 0 returns the input unchanged; the embedding is
pure, so the caller data cannot be mutated. -/
theorem claim3_process_order_zero_identity (v : Vec) (_h : 11 ≤ v.length) :
    get_processed_intensity v 0 = .ok v := rfl

theorem claim3_witness :
    11 ≤ (List.replicate 11 (0 : ℚ)).length ∧
      get_processed_intensity (List.replicate 11 (0 : ℚ)) 0 = .ok (List.replicate 11 (0 : ℚ)) :=
  ⟨by decide, claim3_process_order_zero_identity (List.replicate 11 (0 : ℚ)) (by decide)⟩

/-- C4: for every intensity vector shorter than 11 samples, processing
with derivative order 1 and with derivative order 2 both fail with
InvalidInputLength. -/
theorem claim4_short_input_fails (v : Vec) (h : v.length < 11) :
    get_processed_intensity v 1 = .error .invalidInputLength ∧
      get_processed_intensity v 2 = .error .invalidInputLength := by
  constructor <;> simp [get_processed_intensity, savgol_filter11, h]

theorem claim4_witness :
    (List.replicate 10 (1 : ℚ)).length < 11 ∧
      (get_processed_intensity (List.replicate 10 (1 : ℚ)) 1 = .error .invalidInputLength ∧
        get_processed_intensity (List.replicate 10 (1 : ℚ)) 2 = .error .invalidInputLength) :=
  ⟨by decide, claim4_short_input_fails (List.replicate 10 (1 : ℚ)) (by decide)⟩

/-- C9: for every intensity vector and every derivative order outside
0, 1 and 2 (for example 3 or -1), the preprocessor falls through to
the final return and yields the input unchanged rather than failing. -/
theorem claim9_unrecognized_order_is_identity (v : Vec) (d : Int)
    (h0 : d ≠ 0) (h1 : d ≠ 1) (h2 : d ≠ 2) :
    get_processed_intensity v d = .ok v := by
  unfold get_processed_intensity
  rw [if_neg h0, if_neg h1, if_neg h2]

theorem claim9_witness :
    ((3 : Int) ≠ 0 ∧ (3 : Int) ≠ 1 ∧ (3 : Int) ≠ 2) ∧
      get_processed_intensity [(1 : ℚ), 2, 3] 3 = .ok [(1 : ℚ), 2, 3] :=
  ⟨by decide, claim9_unrecognized_order_is_identity [(1 : ℚ), 2, 3] 3
    (by decide) (by decide) (by decide)⟩

/-- C2: dataset assembly equals the assembly section 4.2 specifies:
exactly the spectra with a present reference value for the target
component are included, each contributing its processed intensity
paired with its reference value, in pool iteration order. -/
theorem claim2_assembly_matches_spec (pool : Pool) (target : String) (derivative : Int) :
    assembleDataset pool target derivative = assembleSpecified pool target derivative :=
  assemble_eq_specified pool target derivative

/- ----------------------------------------------------------------
   Claim C1: the insufficient-data gate
   ---------------------------------------------------------------- -/

/-- A one-spectrum pool whose single spectrum has a present reference
value for component P but an intensity of only 10 samples. -/
def shortPool : Pool :=
  [("short.spa", ⟨[1], List.replicate 10 (1 : ℚ), [("P", some 1)]⟩)]

/-- C1 counterexample: with derivative order 1 and a qualifying
spectrum shorter than the smoothing window, training fails with
InvalidInputLength even though the qualifying count is 1, in 0..4 — so
the claim that every such pool fails with InsufficientData is false as
stated. -/
theorem claim1_counterexample :
    (qualifying shortPool "P").length = 1 ∧
      train_pls_model shortPool "P" 2 1 = .error .invalidInputLength ∧
      train_pls_model shortPool "P" 2 1 ≠ .error (.insufficientData "P") := by
  refine ⟨rfl, rfl, ?_⟩
  intro h
  simp [train_pls_model, assembleDataset, shortPool, refGet, dictGet,
    get_processed_intensity, savgol_filter11] at h

/-- C1 (amended): provided every qualifying spectrum preprocesses
without error at the requested derivative order, training fails with
InsufficientData exactly when the number of spectra with a present
reference value for the target component is below five; the gate sits
between assembly and the split/fit stage, so at five or more the
split/fit stage runs and InsufficientData can no longer arise. -/
theorem claim1_insufficient_iff_fewer_than_five (pool : Pool) (target : String)
    (n : Nat) (d : Int)
    (hp : ∀ fs ∈ pool, (refGet fs.2.refs target).isSome = true →
      (get_processed_intensity fs.2.intensity d).isOk = true) :
    train_pls_model pool target n d = .error (.insufficientData target) ↔
      (qualifying pool target).length < 5 := by
  obtain ⟨r, hr, hlen⟩ :=
    processPairs_ok_of_all_ok d (qualifying pool target) (qualifying_all_ok pool target d hp)
  unfold train_pls_model
  rw [assemble_eq_specified]
  unfold assembleSpecified
  rw [hr]
  simp only [List.length_map]
  by_cases hfive : r.length < 5
  · rw [if_pos hfive, hlen] at *
    simp [hfive]
  · rw [if_neg hfive]
    rw [hlen] at hfive
    simp only [hfive, iff_false]
    intro hcontra
    have := fitStage_error_eq _ _ _ _ hcontra
    simp at this

/-- A four-spectrum pool, every spectrum carrying a present reference
value for component M. -/
def fourPool : Pool :=
  (List.range 4).map (fun i => (toString i, ⟨[1], [(i : ℚ)], [("M", some ((i : ℚ) + 10))]⟩))

theorem claim1_witness :
    train_pls_model fourPool "M" 2 0 = .error (.insufficientData "M") :=
  (claim1_insufficient_iff_fewer_than_five fourPool "M" 2 0 (by decide)).mpr (by decide)

/- ----------------------------------------------------------------
   Claim C6: what the loader stores
   ---------------------------------------------------------------- -/

/-- The spectrum the loader stores for a successful read: both
sequences exactly as the reader returned them, with an empty
reference map. -/
def storedOf (nd : RawND) : SpectrumData := ⟨nd.x, nd.data, []⟩

theorem load_fold_invariant (name : String) (files : List (String × Except String RawND))
    (pool : Pool) (acc : Option RawND)
    (hinv : dictGet pool name = acc.map storedOf) :
    dictGet (files.foldl (fun spectra_data fp =>
        match fp.2 with
        | .ok nd => dictInsert spectra_data fp.1 ⟨nd.x, nd.data, []⟩
        | .error _ => spectra_data) pool) name =
      (files.foldl (fun a fp =>
        match fp.2 with
        | .ok nd => if fp.1 = name then some nd else a
        | .error _ => a) acc).map storedOf := by
  induction files generalizing pool acc with
  | nil => simpa using hinv
  | cons head rest ih =>
    obtain ⟨fname, res⟩ := head
    cases res with
    | error msg => exact ih pool acc hinv
    | ok nd =>
      simp only [List.foldl_cons]
      by_cases hn : fname = name
      · subst hn
        rw [if_pos rfl]
        refine ih _ (some nd) ?_
        simp [dictGet_insert_self, storedOf]
      · rw [if_neg hn]
        refine ih _ acc ?_
        rw [dictGet_insert_ne _ _ _ _ hn]
        exact hinv

/-- C6 counterexample: a spectrum whose wavenumber axis has 2 entries
but whose intensity has 3 is stored by the loader exactly as read —
no length re-validation rejects it. -/
theorem claim6_counterexample :
    dictGet (load_spectra_from_folder [("a.spa", .ok ⟨[1, 2], [3, 4, 5]⟩)]) "a.spa" =
        some ⟨[1, 2], [3, 4, 5], []⟩ ∧
      (SpectrumData.mk [1, 2] [3, 4, 5] []).x.length ≠
        (SpectrumData.mk [1, 2] [3, 4, 5] []).intensity.length := by
  constructor
  · rfl
  · decide

/-- C6 (amended): the loader performs no length re-validation — for
every file list, whatever the external reader last successfully
returned under a name is stored verbatim (wavenumbers and intensity
unchecked and unchanged, empty reference map); only files whose read
failed are skipped. -/
theorem claim6_loader_stores_verbatim (files : List (String × Except String RawND))
    (name : String) (nd : RawND) (h : lastOkRead files name = some nd) :
    dictGet (load_spectra_from_folder files) name = some (storedOf nd) := by
  unfold load_spectra_from_folder
  rw [load_fold_invariant name files [] none rfl]
  unfold lastOkRead at h
  rw [h]
  rfl

theorem claim6_witness :
    lastOkRead [("b.spa", .ok ⟨[7], [8]⟩)] "b.spa" = some ⟨[7], [8]⟩ ∧
      dictGet (load_spectra_from_folder [("b.spa", .ok ⟨[7], [8]⟩)]) "b.spa" =
        some (storedOf ⟨[7], [8]⟩) :=
  ⟨rfl, claim6_loader_stores_verbatim [("b.spa", .ok ⟨[7], [8]⟩)] "b.spa" ⟨[7], [8]⟩ rfl⟩

/- ----------------------------------------------------------------
   Claims C7 and C10: determinism and the frame of the training action
   ---------------------------------------------------------------- -/

theorem action_preserves_spectra (st : AppState) (t : String) (n : Nat) (d : Int) :
    (train_pls_model_action st t n d).1.spectra_data = st.spectra_data := by
  unfold train_pls_model_action
  by_cases ht : t = ""
  · rw [if_pos ht]
  · rw [if_neg ht]
    cases train_pls_model st.spectra_data t n d <;> rfl

theorem action_metrics_congr (s₁ s₂ : AppState) (t : String) (n : Nat) (d : Int)
    (h : s₁.spectra_data = s₂.spectra_data) :
    (train_pls_model_action s₁ t n d).2 = (train_pls_model_action s₂ t n d).2 := by
  unfold train_pls_model_action
  by_cases ht : t = ""
  · rw [if_pos ht, if_pos ht]
  · rw [if_neg ht, if_neg ht, h]
    cases train_pls_model s₂.spectra_data t n d <;> rfl

/-- C7: training is reproducible — running the training action a
second time on the state the first run left behind (same target, same
latent-component count, same derivative order, the built-in seed 42
inside the split) surfaces exactly the same metrics pair; every stage
of the embedded pipeline is a deterministic function of the dataset
and parameters. -/
theorem claim7_repeat_training_same_metrics (st : AppState) (t : String)
    (n : Nat) (d : Int) :
    (train_pls_model_action (train_pls_model_action st t n d).1 t n d).2 =
      (train_pls_model_action st t n d).2 :=
  action_metrics_congr _ _ t n d (action_preserves_spectra st t n d)

/-- C10: the training action never touches the spectra pool, and when
the training call fails (the insufficient-data sentinel or a
propagating library error) the model registry is left exactly as it
was — only a successful return updates it. -/
theorem claim10_frame_of_training_action (st : AppState) (t : String)
    (n : Nat) (d : Int) :
    (train_pls_model_action st t n d).1.spectra_data = st.spectra_data ∧
      (∀ e, train_pls_model st.spectra_data t n d = .error e →
        (train_pls_model_action st t n d).1.pls_models = st.pls_models) := by
  refine ⟨action_preserves_spectra st t n d, fun e he => ?_⟩
  unfold train_pls_model_action
  by_cases ht : t = ""
  · rw [if_pos ht]
  · rw [if_neg ht, he]

theorem claim10_witness :
    (train_pls_model_action ⟨[], []⟩ "M" 2 0).1.spectra_data = ([] : Pool) ∧
      (train_pls_model_action ⟨[], []⟩ "M" 2 0).1.pls_models = ([] : Registry) :=
  ⟨(claim10_frame_of_training_action ⟨[], []⟩ "M" 2 0).1,
   (claim10_frame_of_training_action ⟨[], []⟩ "M" 2 0).2
     (.insufficientData "M") rfl⟩

/- ----------------------------------------------------------------
   Claim C8: registry rename
   ---------------------------------------------------------------- -/

/-- A concrete trained entry used to instantiate the rename theorem. -/
def entryA : RegEntry := ⟨⟨1, [[1]], [1]⟩, ⟨[0], [1]⟩⟩

/-- A second concrete trained entry, used for the rename
counterexample. -/
def entryB : RegEntry := ⟨⟨2, [[2]], [2]⟩, ⟨[0], [1]⟩⟩

/-- C8 counterexample: renaming a component to its own current name is
an early-returned no-op, so the post-rename lookup under the old name
still succeeds — the claim fails when new equals old. -/
theorem claim8_counterexample :
    dictGet (update_component_value [("A", entryB)] [] "A" "A").1 "A" = some entryB ∧
      (some entryB : Option RegEntry) ≠ none := by
  exact ⟨rfl, by simp⟩

/-- C8 (amended): for every registry holding an entry under the old
name and every new name distinct from the old one, the rename branch
of update_component_value makes a lookup under the old name fail and a
lookup under the new name return the pre-rename model and scaler
unchanged; the embedding is a single pure step, so lookups observe no
intermediate state. -/
theorem claim8_rename_moves_entry (reg : Registry) (pool : Pool)
    (oldName newName : String) (e : RegEntry)
    (hne : oldName ≠ newName) (hget : dictGet reg oldName = some e) :
    dictGet (update_component_value reg pool oldName newName).1 oldName = none ∧
      dictGet (update_component_value reg pool oldName newName).1 newName = some e := by
  unfold update_component_value
  rw [if_neg hne]
  dsimp only
  rw [hget]
  constructor
  · rw [dictGet_insert_ne _ _ _ _ (Ne.symm hne), dictGet_erase_self]
  · exact dictGet_insert_self _ _ _

theorem claim8_witness :
    dictGet (update_component_value [("A", entryA)] [] "A" "B").1 "A" = none ∧
      dictGet (update_component_value [("A", entryA)] [] "A" "B").1 "B" = some entryA :=
  claim8_rename_moves_entry [("A", entryA)] [] "A" "B" entryA (by decide) rfl

/- ----------------------------------------------------------------
   Claim C5: the latent-component bound
   ---------------------------------------------------------------- -/

theorem drawAll_length (fuel : Nat) (s : Nat) (l : List Nat) :
    (drawAll fuel s l).length = min fuel l.length := by
  induction fuel generalizing s l with
  | zero => simp [drawAll]
  | succ f ih =>
    cases l with
    | nil => simp [drawAll]
    | cons a rest =>
      have hi : s % (a :: rest).length < (a :: rest).length :=
        Nat.mod_lt _ (by simp)
      unfold drawAll
      dsimp only
      rw [List.length_cons, ih, List.length_eraseIdx_of_lt hi]
      simp only [List.length_cons]
      omega

theorem drawAll_mem (fuel s : Nat) (l : List Nat) :
    ∀ x ∈ drawAll fuel s l, x ∈ l := by
  induction fuel generalizing s l with
  | zero => simp [drawAll]
  | succ f ih =>
    cases l with
    | nil => simp [drawAll]
    | cons a rest =>
      intro x hx
      have hi : s % (a :: rest).length < (a :: rest).length :=
        Nat.mod_lt _ (by simp)
      unfold drawAll at hx
      dsimp only at hx
      rcases List.mem_cons.mp hx with h | h
      · rw [h, List.getD_eq_getElem _ _ hi]
        exact List.getElem_mem hi
      · exact List.mem_of_mem_eraseIdx (ih _ _ x h)

theorem seededPerm_length (seed n : Nat) : (seededPerm seed n).length = n := by
  unfold seededPerm
  rw [drawAll_length]
  simp

theorem seededPerm_mem (seed n : Nat) : ∀ x ∈ seededPerm seed n, x < n := by
  intro x hx
  have := drawAll_mem n seed (List.range n) x hx
  simpa using this

theorem rowsOf_mem (X : List Vec) (idx : List Nat)
    (h : ∀ i ∈ idx, i < X.length) : ∀ r ∈ rowsOf X idx, r ∈ X := by
  intro r hr
  rw [rowsOf, List.mem_map] at hr
  obtain ⟨i, hi, heq⟩ := hr
  rw [← heq, List.getD_eq_getElem _ _ (h i hi)]
  exact List.getElem_mem (h i hi)

theorem plsFit_error_of_lt (nComponents : Nat) (X : List Vec) (y : Vec)
    (h : min X.length (featDim X) < nComponents) :
    plsFit nComponents X y = .error .invalidParameter := by
  unfold plsFit
  rw [if_neg]
  rintro ⟨h1, h2⟩
  omega

theorem transformRow_length (sc : Scaler) (r : Vec) :
    (transformRow sc r).length = sc.mean.length := by
  simp [transformRow]

theorem fitScaler_mean_length (X : List Vec) :
    (fitScaler X).mean.length = featDim X := by
  simp [fitScaler, colMeans]

/-- C5: the split/scale/fit stage fails with InvalidParameter whenever
the requested latent-component count exceeds the minimum of the
training-subset sample count (the samples left after the 30 percent
held-out split) and the feature dimensionality of the dataset, for
every dataset of uniform row length. -/
theorem claim5_excess_components_invalid_parameter (X : List Vec) (y : Vec) (n : Nat)
    (huni : ∀ r ∈ X, r.length = featDim X)
    (hgt : min (X.length - nTestOf X.length) (featDim X) < n) :
    fitStage X y n = .error .invalidParameter := by
  have hidx : ∀ i ∈ (splitIdx X.length).1, i < X.length := by
    intro i hi
    unfold splitIdx at hi
    dsimp only at hi
    exact seededPerm_mem 42 X.length i (List.mem_of_mem_drop hi)
  have hlen : (rowsOf X (splitIdx X.length).1).length = X.length - nTestOf X.length := by
    unfold rowsOf splitIdx
    dsimp only
    rw [List.length_map, List.length_drop, seededPerm_length]
  unfold fitStage
  dsimp only
  rw [plsFit_error_of_lt]
  rw [List.length_map, hlen]
  cases hxt : rowsOf X (splitIdx X.length).1 with
  | nil =>
    rw [hxt] at hlen
    simp only [List.length_nil] at hlen
    simp only [List.map_nil, featDim, List.headD_nil, List.length_nil]
    omega
  | cons a rest =>
    have ha : a ∈ X := by
      refine rowsOf_mem X (splitIdx X.length).1 hidx a ?_
      rw [hxt]
      exact List.mem_cons_self a rest
    have hfd : featDim (List.map (transformRow (fitScaler (a :: rest))) (a :: rest)) =
        featDim X := by
      simp only [List.map_cons, featDim, List.headD_cons]
      rw [transformRow_length, fitScaler_mean_length]
      simp only [featDim, List.headD_cons]
      exact huni a ha
    rw [hfd]
    exact hgt

/-- A five-row, one-feature dataset with the reference values of the
section 8 scenario as targets. -/
def scenarioX : List Vec := [[1], [2], [3], [4], [5]]
def scenarioY : Vec := [10, 125/10, 98/10, 111/10, 107/10]

theorem claim5_witness :
    (∀ r ∈ scenarioX, r.length = featDim scenarioX) ∧
      min (scenarioX.length - nTestOf scenarioX.length) (featDim scenarioX) < 10 ∧
      fitStage scenarioX scenarioY 10 = .error .invalidParameter :=
  ⟨by decide, by decide,
   claim5_excess_components_invalid_parameter scenarioX scenarioY 10 (by decide) (by decide)⟩

end Chemometrics
